import Mathlib

/-!
Verification of the outpainting planner and orchestrator of the
`multinpainter` repository (`src/multinpainter/multinpainter.py` and
`src/multinpainter/models.py`), against its natural-language specification.

The Python code is shallowly embedded: Python integers become `Int`
(Python `//` is `Int.fdiv`, i.e. floor division; `int()` applied to a
non-negative or exact value truncates toward zero, i.e. `Int.tdiv` on the
exact rational), image rasters become functions from coordinates to an
abstract pixel value, and the per-tile inpainting call becomes an abstract
collaborator function passed as a parameter.  Floating-point division in
`calculate_expansion` (`fx / w` as a Python float) is modelled by exact
rational arithmetic followed by truncation, matching the spec's stated
`floor((W−w) * x_pct)` semantics for the non-negative operands it
quantifies over.
-/

namespace Multinpainter

/-! ## Geometry engine: `Multinpainter_OpenAI.calculate_expansion`

Python source (multinpainter.py, lines 354-363):
```
x_percentage = self.center_of_focus[0] / self.input_width
y_percentage = self.center_of_focus[1] / self.input_height
x_left = int((self.out_width - self.input_width) * x_percentage)
x_right = self.out_width - self.input_width - x_left
y_top = int((self.out_height - self.input_height) * y_percentage)
y_bottom = self.out_height - self.input_height - y_top
return x_left, x_right, y_top, y_bottom
```
`int(...)` truncates toward zero; `(W - w) * (fx / w)` is modelled as the
exact rational `(W - w) * fx / w`, hence `Int.tdiv ((W - w) * fx) w`. -/

def calculate_expansion (w h W H fx fy : Int) : Int × Int × Int × Int :=
  let x_left := Int.tdiv ((W - w) * fx) w
  let x_right := W - w - x_left
  let y_top := Int.tdiv ((H - h) * fy) h
  let y_bottom := H - h - y_top
  (x_left, x_right, y_top, y_bottom)

/-! ## Tile planner -/

/-- The four straight directions of `move_square`. -/
inductive Dir
  | up
  | left
  | right
  | down
deriving DecidableEq

/-- Embedding of `Multinpainter_OpenAI.move_square` (multinpainter.py,
lines 492-528).  One coordinate of the result is `none` exactly when the
clamped step produced no change (Python sets that coordinate to `None`):
```
if direction == "up":
    next_y = max(0, y - self.step)
    if next_y == y: return x, None
    return x, next_y
elif direction == "left":
    next_x = max(0, x - self.step)
    if next_x == x: return None, y
    return next_x, y
elif direction == "right":
    next_x = min(x + self.step, self.out_width - self.square)
    if next_x == x: return None, y
    return next_x, y
elif direction == "down":
    next_y = min(y + self.step, self.out_height - self.square)
    if next_y == y: return x, None
    return x, next_y
``` -/
def move_square (W H S T : Int) (p : Int × Int) (d : Dir) : Option Int × Option Int :=
  match d with
  | .up =>
    let next_y := max 0 (p.2 - T)
    if next_y = p.2 then (some p.1, none) else (some p.1, some next_y)
  | .left =>
    let next_x := max 0 (p.1 - T)
    if next_x = p.1 then (none, some p.2) else (some next_x, some p.2)
  | .right =>
    let next_x := min (p.1 + T) (W - S)
    if next_x = p.1 then (none, some p.2) else (some next_x, some p.2)
  | .down =>
    let next_y := min (p.2 + T) (H - S)
    if next_y = p.2 then (some p.1, none) else (some p.1, some next_y)

/-- Fuel-indexed unfolding of the `while True` loop of
`create_planned_squares` (multinpainter.py, lines 473-478):
```
cur_x, cur_y = x, y
while True:
    cur_x, cur_y = self.move_square((cur_x, cur_y), direction)
    if cur_x is None or cur_y is None:
        break
    planned_squares[direction].append((cur_x, cur_y))
```
The loop itself carries no fuel; `dirFuel` below supplies enough fuel
that the recursion always stops at the loop's own `break` condition
(proved in `dirSeq_stops_of_fuel`). -/
def dirSeq (W H S T : Int) (d : Dir) (p : Int × Int) : Nat → List (Int × Int)
  | 0 => []
  | fuel + 1 =>
    match move_square W H S T p d with
    | (some nx, some ny) => (nx, ny) :: dirSeq W H S T d (nx, ny) fuel
    | _ => []

/-- Fuel that always suffices for `dirSeq` to reach the loop's own stop
condition (an over-approximation of the iteration count). -/
def dirFuel (W H S T : Int) (p : Int × Int) : Nat :=
  p.1.natAbs + p.2.natAbs + W.natAbs + H.natAbs + S.natAbs + T.natAbs + 2

/-- The full tile sequence of one straight direction. -/
def direction_squares (W H S T : Int) (d : Dir) (p : Int × Int) : List (Int × Int) :=
  dirSeq W H S T d p (dirFuel W H S T p)

/-- Embedding of `Multinpainter_OpenAI.get_initial_square_position`
(multinpainter.py, lines 373-382); Python `//` is floor division:
```
x_init = max(0, self.expansion[0] - (self.square - self.input_width) // 2)
y_init = max(0, self.expansion[2] - (self.square - self.input_height) // 2)
``` -/
def get_initial_square_position (left top w h S : Int) : Int × Int :=
  (max 0 (left - Int.fdiv (S - w) 2), max 0 (top - Int.fdiv (S - h) 2))

/-- Embedding of the diagonal-quadrant loop of `create_planned_squares`
(multinpainter.py, lines 481-487): the outer loop ranges over the
vertical direction's tiles, the inner over the horizontal direction's,
appending `(lr_sq[0], up_sq[1])`. -/
def quadrant (vert horiz : List (Int × Int)) : List (Int × Int) :=
  vert.flatMap (fun up_sq => horiz.map (fun lr_sq => (lr_sq.1, up_sq.2)))

/-- The ordered tile plan (Python `OrderedDict` with fixed keys). -/
structure TilePlan where
  init : List (Int × Int)
  up : List (Int × Int)
  left : List (Int × Int)
  right : List (Int × Int)
  down : List (Int × Int)
  up_left : List (Int × Int)
  up_right : List (Int × Int)
  down_left : List (Int × Int)
  down_right : List (Int × Int)
deriving DecidableEq

/-- Embedding of `Multinpainter_OpenAI.create_planned_squares`
(multinpainter.py, lines 434-490): the init tile, the four straight
directional sequences grown from it, and the four diagonal quadrants as
cross-products. -/
def create_planned_squares (W H S T left top w h : Int) : TilePlan :=
  let init_square := get_initial_square_position left top w h S
  let up_sqs := direction_squares W H S T .up init_square
  let left_sqs := direction_squares W H S T .left init_square
  let right_sqs := direction_squares W H S T .right init_square
  let down_sqs := direction_squares W H S T .down init_square
  { init := [init_square]
    up := up_sqs
    left := left_sqs
    right := right_sqs
    down := down_sqs
    up_left := quadrant up_sqs left_sqs
    up_right := quadrant up_sqs right_sqs
    down_left := quadrant down_sqs left_sqs
    down_right := quadrant down_sqs right_sqs }

/-- All tile positions of a plan, in paint order. -/
def planPositions (tp : TilePlan) : List (Int × Int) :=
  tp.init ++ tp.up ++ tp.left ++ tp.right ++ tp.down ++
    tp.up_left ++ tp.up_right ++ tp.down_left ++ tp.down_right

/-! ## Prompt selector: `Multinpainter_OpenAI.human_in_square`

Python source (multinpainter.py, lines 384-400) — a loop with early
`return True` on the first matching box, i.e. an existence test:
```
x0, y0, x1, y1 = square_box
for box in self.human_boxes:
    bx0, by0, bx1, by1 = box
    if x0 < bx1 and x1 > bx0 and y0 < by1 and y1 > by0:
        return True
return False
``` -/
def human_in_square (human_boxes : List (Int × Int × Int × Int))
    (square_box : Int × Int × Int × Int) : Bool :=
  let x0 := square_box.1
  let y0 := square_box.2.1
  let x1 := square_box.2.2.1
  let y1 := square_box.2.2.2
  human_boxes.any fun box =>
    let bx0 := box.1
    let by0 := box.2.1
    let bx1 := box.2.2.1
    let by1 := box.2.2.2
    decide (x0 < bx1) && decide (x1 > bx0) && decide (y0 < by1) && decide (y1 > by0)

/-! ## Orchestrator per-tile step: `Multinpainter_OpenAI.inpaint_square`

The canvas is modelled as a function from coordinates to an abstract
pixel value; `crop` and `paste` mirror PIL's rectangle crop and paste at
a position.  The external inpainting collaborator (`func_inpaint`, an
OpenAI call in the source) is an abstract function from the cropped
square and the chosen prompt to a new square. -/

/-- A raster: pixel value at each canvas coordinate. -/
def Canvas : Type := Int × Int → Nat

/-- Crop the `S`-sided square at `(x, y)`: the result is indexed in
tile-local coordinates. -/
def crop (c : Canvas) (x y : Int) : Canvas :=
  fun q => c (x + q.1, y + q.2)

/-- Paste square `tile` of side `S` into `c` at `(x, y)`. -/
def paste (c : Canvas) (tile : Canvas) (x y S : Int) : Canvas :=
  fun q =>
    if x ≤ q.1 ∧ q.1 < x + S ∧ y ≤ q.2 ∧ q.2 < y + S then tile (q.1 - x, q.2 - y)
    else c q

/-- Outcome of one `inpaint_square` call: the resulting canvas, whether
the external inpainting collaborator was invoked, and the prompt sent to
it (`none` when the tile was skipped). -/
structure InpaintResult where
  canvas : Canvas
  called : Bool
  promptUsed : Option String

/-- Embedding of `Multinpainter_OpenAI.inpaint_square` (multinpainter.py,
lines 402-432):
```
x, y = square_delta
x1, y1 = x + self.square, y + self.square
if x >= self.expansion[0] and y >= self.expansion[2] and \
   x1 <= self.expansion[0] + self.input_width and \
   y1 <= self.expansion[2] + self.input_height:
    return
square = self.out_image.crop((x, y, x1, y1))
if self.human_in_square((x, y, x1, y1)):
    prompt = self.prompt_human
else:
    prompt = self.prompt_fallback
inpainted_square = await func_inpaint(square, prompt, ...)
self.out_image.paste(inpainted_square, (x, y))
``` -/
def inpaint_square (func_inpaint : Canvas → String → Canvas)
    (left top w h S : Int) (human_boxes : List (Int × Int × Int × Int))
    (prompt_human prompt_fallback : String)
    (out_image : Canvas) (square_delta : Int × Int) : InpaintResult :=
  let x := square_delta.1
  let y := square_delta.2
  let x1 := x + S
  let y1 := y + S
  if x ≥ left ∧ y ≥ top ∧ x1 ≤ left + w ∧ y1 ≤ top + h then
    { canvas := out_image, called := false, promptUsed := none }
  else
    let square := crop out_image x y
    let prompt :=
      if human_in_square human_boxes (x, y, x1, y1) then prompt_human else prompt_fallback
    { canvas := paste out_image (func_inpaint square prompt) x y S
      called := true
      promptUsed := some prompt }

/-! ## Fallback-prompt derivation: `Multinpainter_OpenAI.make_prompt_fallback`

Python source (multinpainter.py, lines 259-284).  The structured
response of the text-completion collaborator is modelled as the outcome
of `json.loads`: either a parse failure (`json.decoder.JSONDecodeError`),
or a parsed Python value `PyJson`.  The method's `try` block is
```
try:
    prompt_fallback = json.loads(result).get("approved", [])
    self.prompt_fallback = ", ".join(prompt_fallback) + ", no humans"
except json.decoder.JSONDecodeError:
    logging.warning(...)
```
so only the parse failure is caught: `.get` on a parsed non-dict raises
an uncaught `AttributeError`, and `", ".join` on a non-joinable value an
uncaught `TypeError`. -/

/-- A parsed Python JSON value. -/
inductive PyJson
  | null
  | bool (b : Bool)
  | num (n : Int)
  | str (s : String)
  | arr (xs : List PyJson)
  | obj (fields : List (String × PyJson))

/-- Python truthiness of an optional string (`if self.fallback:`):
`None` and the empty string are falsy. -/
def pyTruthy : Option String → Bool
  | none => false
  | some s => !(s == "")

/-- Python `value.get(key, default)`: only dicts have `.get`; every other
value raises `AttributeError` (modelled as `Except.error`). -/
def pyGet (v : PyJson) (key : String) (dflt : PyJson) : Except String PyJson :=
  match v with
  | .obj fields =>
    match fields.lookup key with
    | some x => .ok x
    | none => .ok dflt
  | _ => .error "AttributeError"

/-- Whether a parsed value is a string. -/
def pyIsStr : PyJson → Bool
  | .str _ => true
  | _ => false

/-- The string content of a parsed value (meaningful when `pyIsStr`). -/
def pyStrVal : PyJson → String
  | .str s => s
  | _ => ""

/-- Python `sep.join(v)`: joins an iterable of strings.  A list joins its
elements when all are strings (`TypeError` otherwise), a string joins its
characters, a dict joins its keys; other values are not iterable
(`TypeError`). -/
def pyJoin (sep : String) (v : PyJson) : Except String String :=
  match v with
  | .str s => .ok (String.intercalate sep (s.toList.map (fun ch => String.mk [ch])))
  | .arr xs =>
    if xs.all pyIsStr then .ok (String.intercalate sep (xs.map pyStrVal))
    else .error "TypeError"
  | .obj fields => .ok (String.intercalate sep (fields.map (·.1)))
  | _ => .error "TypeError"

/-- Observable outcome of one `make_prompt_fallback` call. -/
inductive FallbackOutcome
  | skipped
  | warnedUnset
  | assigned (s : String)
  | raised (err : String)
deriving DecidableEq

/-- Embedding of `Multinpainter_OpenAI.make_prompt_fallback`
(multinpainter.py, lines 259-284), as a function of the already-provided
fallback attribute and of the parse outcome of the collaborator's
response (`none` = `json.loads` raised `JSONDecodeError`). -/
def make_prompt_fallback (fallback : Option String) (parsed : Option PyJson) :
    FallbackOutcome :=
  if pyTruthy fallback then .skipped
  else
    match parsed with
    | none => .warnedUnset
    | some v =>
      match pyGet v "approved" (.arr []) with
      | .error e => .raised e
      | .ok approved =>
        match pyJoin ", " approved with
        | .error e => .raised e
        | .ok s => .assigned (s ++ ", no humans")

/-! ## Captioning step: `describe_image` and the prompt setup of
`iterative_inpainting`

Python source (multinpainter.py, lines 294-299 and 535-540):
```
async def describe_image(self, func_describe=None, *args, **kwargs):
    if func_describe is None:
        from .models import describe_image_huggingface
        func_describe = describe_image_huggingface
    self.prompt = await func_describe(self.image, ...)      # no return

async def iterative_inpainting(self):
    if not self.prompt:
        self.prompt = await self.describe_image()
    self.prompt_human = self.prompt
    self.prompt_fallback = self.fallback or self.prompt
```
With no `func_describe` override, `describe_image` first executes
`from .models import describe_image_huggingface`, which raises
`ImportError` because `models.py` does not define that name; when a
collaborator is supplied, the method assigns its description to
`self.prompt` and falls off the end, so its return value is Python
`None`. -/

/-- The top-level names defined by `src/multinpainter/models.py`. -/
def models_module_names : List String :=
  ["describe_image_hf", "detect_humans_yolo", "detect_faces_dlib", "inpaint_square_openai"]

/-- The helper name `describe_image` imports from `.models` on its
default path. -/
def describe_image_import_name : String := "describe_image_huggingface"

/-- `describe_image` with an explicit `func_describe` collaborator (so
no import is attempted): given the current `self.prompt` and the string
the collaborator returns, produce the new `self.prompt` attribute and
the method's return value (Python `None`). -/
def describe_image (_prompt : Option String) (described : String) :
    Option String × Option String :=
  (some described, none)

/-- `describe_image` as invoked with no `func_describe` argument — the
call `self.describe_image()` in `iterative_inpainting`: the default path
first runs `from .models import describe_image_huggingface`, which
raises `ImportError`; only were that name defined would the method
proceed as `describe_image`. -/
def describe_image_default (prompt : Option String) (described : String) :
    Except String (Option String × Option String) :=
  if describe_image_import_name ∈ models_module_names then
    .ok (describe_image prompt described)
  else
    .error "ImportError: cannot import name describe_image_huggingface from multinpainter.models"

/-- The prompt-setup prefix of `iterative_inpainting`: returns the
resulting `(self.prompt, self.prompt_human, self.prompt_fallback)`, or
the exception propagating out of `self.prompt = await
self.describe_image()`.  When that call returns, `self.prompt` receives
its return value (discarding the attribute assignment the method made
internally).  Python `a or b` yields `a` when truthy, else `b`. -/
def iterative_inpainting_prompts (prompt fallback : Option String)
    (described : String) :
    Except String (Option String × Option String × Option String) :=
  if pyTruthy prompt then
    .ok (prompt, prompt, if pyTruthy fallback then fallback else prompt)
  else
    match describe_image_default prompt described with
    | .error e => .error e
    | .ok (_, ret) =>
      .ok (ret, ret, if pyTruthy fallback then fallback else ret)

/-! ## Initialization with `humans=True`

`Multinpainter_OpenAI.__init__` (multinpainter.py, lines 189-193) runs
```
self.human_boxes = self.detect_humans() if self.humans else []
if len(self.human_boxes):
    self.make_prompt_fallback()
self.paste_input_image()
self.planned_squares = self.create_planned_squares()
```
and `detect_humans` (lines 302-316) begins with
`from .models import detect_humans_yolov8`, assigns
`self.human_boxes = func_detect(self.image, ...)` and falls off the end
(returns `None`).  `models.py` defines only the names listed in
`models_module_names` above. -/

/-- The helper name `detect_humans` imports from `.models`. -/
def detect_humans_import_name : String := "detect_humans_yolov8"

/-- `detect_humans` with an explicit `func_detect`: assigns the detected
boxes to `self.human_boxes` and returns Python `None`.  The first
component is the new attribute value, the second the return value. -/
def detect_humans (boxes_detected : List (Int × Int × Int × Int)) :
    List (Int × Int × Int × Int) × Option (List (Int × Int × Int × Int)) :=
  (boxes_detected, none)

/-- Outcome of the initialization steps from human detection to tile
planning. -/
inductive InitOutcome
  | completed (planned : TilePlan)
  | error (msg : String)
deriving DecidableEq

/-- The `__init__` steps from `self.human_boxes = self.detect_humans() if
self.humans else []` through `self.planned_squares =
self.create_planned_squares()`, for a default call (no `func_detect`
override).  With `humans=True`, `detect_humans` first executes
`from .models import detect_humans_yolov8`, which raises `ImportError`
because `models.py` does not define that name; were the import to
resolve, `detect_humans` would still return `None`, and
`len(self.human_boxes)` would raise `TypeError`. -/
def init_humans_planning (humans : Bool) (W H S T left top w h : Int) : InitOutcome :=
  if humans then
    if detect_humans_import_name ∈ models_module_names then
      .error "TypeError: object of type NoneType has no len()"
    else
      .error "ImportError: cannot import name detect_humans_yolov8 from multinpainter.models"
  else
    .completed (create_planned_squares W H S T left top w h)

/-! ## Analysis of the directional loop

Each straight direction of the planner changes a single coordinate, so
`dirSeq` is a `List.map` image of a scalar orbit: steps toward `0`
(`up`, `left`) or toward a bound (`right`, `down`). -/

/-- Scalar step toward `0`, used by the `up` and `left` directions:
`max(0, x - T)`. -/
def stepToZero (T x : Int) : Int := max 0 (x - T)

/-- Scalar step toward bound `B`, used by the `right` and `down`
directions: `min(x + T, B)` with `B = W - S` resp. `H - S`. -/
def stepToBound (B T x : Int) : Int := min (x + T) B

/-- Scalar view of the planner's directional loop. -/
def scalarSeq (f : Int → Int) : Int → Nat → List Int
  | _, 0 => []
  | x, fuel + 1 => if f x = x then [] else f x :: scalarSeq f (f x) fuel

/-- A `move_square` result signals loop termination when either
coordinate is `None`. -/
def stops (m : Option Int × Option Int) : Bool := m.1.isNone || m.2.isNone

/-- `q` lies strictly further than `p` in direction `d`, with the
orthogonal coordinate unchanged. -/
def away : Dir → Int × Int → Int × Int → Prop
  | .up, p, q => q.2 < p.2 ∧ q.1 = p.1
  | .left, p, q => q.1 < p.1 ∧ q.2 = p.2
  | .right, p, q => p.1 < q.1 ∧ q.2 = p.2
  | .down, p, q => p.2 < q.2 ∧ q.1 = p.1

instance away.decidable (d : Dir) (p q : Int × Int) : Decidable (away d p q) :=
  match d with
  | .up => inferInstanceAs (Decidable (q.2 < p.2 ∧ q.1 = p.1))
  | .left => inferInstanceAs (Decidable (q.1 < p.1 ∧ q.2 = p.2))
  | .right => inferInstanceAs (Decidable (p.1 < q.1 ∧ q.2 = p.2))
  | .down => inferInstanceAs (Decidable (p.2 < q.2 ∧ q.1 = p.1))

/-- The starting tile does not already lie beyond the far canvas edge of
direction `d` (for `up`/`left`, beyond the origin). -/
def seedOk (W H S : Int) : Dir → Int × Int → Prop
  | .up, p => 0 ≤ p.2
  | .left, p => 0 ≤ p.1
  | .right, p => p.1 ≤ W - S
  | .down, p => p.2 ≤ H - S

instance seedOk.decidable (W H S : Int) (d : Dir) (p : Int × Int) :
    Decidable (seedOk W H S d p) :=
  match d with
  | .up => inferInstanceAs (Decidable (0 ≤ p.2))
  | .left => inferInstanceAs (Decidable (0 ≤ p.1))
  | .right => inferInstanceAs (Decidable (p.1 ≤ W - S))
  | .down => inferInstanceAs (Decidable (p.2 ≤ H - S))

theorem scalarSeq_eq_nil_of_fix {f : Int → Int} {x : Int} (h : f x = x) :
    ∀ fuel, scalarSeq f x fuel = []
  | 0 => rfl
  | _ + 1 => by simp [scalarSeq, h]

theorem scalarSeq_chain_fix (f : Int → Int) :
    ∀ fuel x, List.Chain (fun a b => f a = b ∧ b ≠ a) x (scalarSeq f x fuel)
  | 0, _ => List.Chain.nil
  | fuel + 1, x => by
    unfold scalarSeq
    by_cases h : f x = x
    · rw [if_pos h]; exact List.Chain.nil
    · rw [if_neg h]; exact List.Chain.cons ⟨rfl, h⟩ (scalarSeq_chain_fix f fuel (f x))

theorem scalarSeq_mem_toBound {B T : Int} (hT : 0 < T) (hB : 0 ≤ B) :
    ∀ fuel x, 0 ≤ x → ∀ z ∈ scalarSeq (stepToBound B T) x fuel, 0 ≤ z ∧ z ≤ B
  | 0, x, _, z, hz => by simp [scalarSeq] at hz
  | fuel + 1, x, hx, z, hz => by
    unfold scalarSeq at hz
    by_cases h : stepToBound B T x = x
    · rw [if_pos h] at hz; simp at hz
    · rw [if_neg h] at hz
      have hnx : 0 ≤ stepToBound B T x :=
        le_min (by linarith) hB
      rcases List.mem_cons.mp hz with hz | hz
      · exact hz ▸ ⟨hnx, min_le_right _ _⟩
      · exact scalarSeq_mem_toBound hT hB fuel (stepToBound B T x) hnx z hz

theorem scalarSeq_mem_toZero {T : Int} (hT : 0 < T) :
    ∀ fuel x, 0 ≤ x → ∀ z ∈ scalarSeq (stepToZero T) x fuel, 0 ≤ z ∧ z ≤ x
  | 0, x, _, z, hz => by simp [scalarSeq] at hz
  | fuel + 1, x, hx, z, hz => by
    unfold scalarSeq at hz
    by_cases h : stepToZero T x = x
    · rw [if_pos h] at hz; simp at hz
    · rw [if_neg h] at hz
      have hnx : 0 ≤ stepToZero T x := le_max_left _ _
      have hnx2 : stepToZero T x ≤ x := max_le hx (by linarith)
      rcases List.mem_cons.mp hz with hz | hz
      · exact hz ▸ ⟨hnx, hnx2⟩
      · obtain ⟨h1, h2⟩ := scalarSeq_mem_toZero hT fuel (stepToZero T x) hnx z hz
        exact ⟨h1, le_trans h2 hnx2⟩

theorem scalarSeq_chain_lt_toBound {B T : Int} (hT : 0 < T) :
    ∀ fuel x, x ≤ B → List.Chain (· < ·) x (scalarSeq (stepToBound B T) x fuel)
  | 0, _, _ => List.Chain.nil
  | fuel + 1, x, hxB => by
    unfold scalarSeq
    by_cases h : stepToBound B T x = x
    · rw [if_pos h]; exact List.Chain.nil
    · rw [if_neg h]
      have hxB' : x < B := by
        rcases lt_or_eq_of_le hxB with h' | h'
        · exact h'
        · exact absurd (by rw [← h']; exact min_eq_right (by linarith)) h
      have hlt : x < stepToBound B T x := lt_min (by linarith) hxB'
      exact List.Chain.cons hlt
        (scalarSeq_chain_lt_toBound hT fuel _ (min_le_right _ _))

theorem scalarSeq_chain_gt_toZero {T : Int} (hT : 0 < T) :
    ∀ fuel x, 0 ≤ x → List.Chain (fun a b => b < a) x (scalarSeq (stepToZero T) x fuel)
  | 0, _, _ => List.Chain.nil
  | fuel + 1, x, hx => by
    unfold scalarSeq
    by_cases h : stepToZero T x = x
    · rw [if_pos h]; exact List.Chain.nil
    · rw [if_neg h]
      have hle : stepToZero T x ≤ x := max_le hx (by linarith)
      exact List.Chain.cons (lt_of_le_of_ne hle h)
        (scalarSeq_chain_gt_toZero hT fuel _ (le_max_left _ _))

theorem scalarSeq_last_fix_toBound {B T : Int} (hT : 0 < T) :
    ∀ fuel x, (B - x).toNat + 2 ≤ fuel → ∀ a,
      (x :: scalarSeq (stepToBound B T) x fuel).getLast? = some a →
      stepToBound B T a = a
  | 0, _, hfuel, _, _ => absurd hfuel (by omega)
  | fuel + 1, x, hfuel, a, hlast => by
    unfold scalarSeq at hlast
    by_cases h : stepToBound B T x = x
    · rw [if_pos h] at hlast
      simp only [List.getLast?_singleton, Option.some.injEq] at hlast
      exact hlast ▸ h
    · rw [if_neg h, List.getLast?_cons_cons] at hlast
      by_cases hx : x < B
      · have hstep : x + 1 ≤ stepToBound B T x := le_min (by linarith) (by linarith)
        have hle : stepToBound B T x ≤ B := min_le_right _ _
        have hfuel' : (B - stepToBound B T x).toNat + 2 ≤ fuel := by omega
        exact scalarSeq_last_fix_toBound hT fuel _ hfuel' a hlast
      · have hnx : stepToBound B T x = B := min_eq_right (by linarith)
        have hBfix : stepToBound B T B = B := min_eq_right (by linarith)
        rw [hnx, scalarSeq_eq_nil_of_fix hBfix] at hlast
        simp only [List.getLast?_singleton, Option.some.injEq] at hlast
        exact hlast ▸ hBfix

theorem scalarSeq_last_fix_toZero {T : Int} (hT : 0 < T) :
    ∀ fuel x, x.toNat + 2 ≤ fuel → ∀ a,
      (x :: scalarSeq (stepToZero T) x fuel).getLast? = some a →
      stepToZero T a = a
  | 0, _, hfuel, _, _ => absurd hfuel (by omega)
  | fuel + 1, x, hfuel, a, hlast => by
    unfold scalarSeq at hlast
    by_cases h : stepToZero T x = x
    · rw [if_pos h] at hlast
      simp only [List.getLast?_singleton, Option.some.injEq] at hlast
      exact hlast ▸ h
    · rw [if_neg h, List.getLast?_cons_cons] at hlast
      by_cases hx : 0 < x
      · have hstep : stepToZero T x ≤ x - 1 := max_le (by linarith) (by linarith)
        have h0 : 0 ≤ stepToZero T x := le_max_left _ _
        have hfuel' : (stepToZero T x).toNat + 2 ≤ fuel := by omega
        exact scalarSeq_last_fix_toZero hT fuel _ hfuel' a hlast
      · have hnx : stepToZero T x = 0 := max_eq_left (by linarith)
        have h0fix : stepToZero T 0 = 0 := max_eq_left (by linarith)
        rw [hnx, scalarSeq_eq_nil_of_fix h0fix] at hlast
        simp only [List.getLast?_singleton, Option.some.injEq] at hlast
        exact hlast ▸ h0fix

theorem dirSeq_up_eq (W H S T x y : Int) :
    ∀ fuel, dirSeq W H S T .up (x, y) fuel
      = (scalarSeq (stepToZero T) y fuel).map fun b => (x, b)
  | 0 => rfl
  | fuel + 1 => by
    by_cases h : max 0 (y - T) = y
    · simp [dirSeq, scalarSeq, move_square, stepToZero, h]
    · simp [dirSeq, scalarSeq, move_square, stepToZero, h,
        dirSeq_up_eq W H S T x (max 0 (y - T)) fuel]

theorem dirSeq_left_eq (W H S T x y : Int) :
    ∀ fuel, dirSeq W H S T .left (x, y) fuel
      = (scalarSeq (stepToZero T) x fuel).map fun a => (a, y)
  | 0 => rfl
  | fuel + 1 => by
    by_cases h : max 0 (x - T) = x
    · simp [dirSeq, scalarSeq, move_square, stepToZero, h]
    · simp [dirSeq, scalarSeq, move_square, stepToZero, h,
        dirSeq_left_eq W H S T (max 0 (x - T)) y fuel]

theorem dirSeq_right_eq (W H S T x y : Int) :
    ∀ fuel, dirSeq W H S T .right (x, y) fuel
      = (scalarSeq (stepToBound (W - S) T) x fuel).map fun a => (a, y)
  | 0 => rfl
  | fuel + 1 => by
    by_cases h : min (x + T) (W - S) = x
    · simp [dirSeq, scalarSeq, move_square, stepToBound, h]
    · simp [dirSeq, scalarSeq, move_square, stepToBound, h,
        dirSeq_right_eq W H S T (min (x + T) (W - S)) y fuel]

theorem dirSeq_down_eq (W H S T x y : Int) :
    ∀ fuel, dirSeq W H S T .down (x, y) fuel
      = (scalarSeq (stepToBound (H - S) T) y fuel).map fun b => (x, b)
  | 0 => rfl
  | fuel + 1 => by
    by_cases h : min (y + T) (H - S) = y
    · simp [dirSeq, scalarSeq, move_square, stepToBound, h]
    · simp [dirSeq, scalarSeq, move_square, stepToBound, h,
        dirSeq_down_eq W H S T x (min (y + T) (H - S)) fuel]

theorem dirSeq_chain_move (W H S T : Int) (d : Dir) :
    ∀ fuel p, List.Chain (fun a b => move_square W H S T a d = (some b.1, some b.2)) p
      (dirSeq W H S T d p fuel)
  | 0, _ => List.Chain.nil
  | fuel + 1, p => by
    rcases hm : move_square W H S T p d with ⟨_ | nx, _ | ny⟩
    · simp only [dirSeq, hm]; exact List.Chain.nil
    · simp only [dirSeq, hm]; exact List.Chain.nil
    · simp only [dirSeq, hm]; exact List.Chain.nil
    · simp only [dirSeq, hm]
      exact List.Chain.cons hm (dirSeq_chain_move W H S T d fuel (nx, ny))

theorem direction_squares_up_mem {W H S T x y : Int} (hT : 0 < T) (hy : 0 ≤ y) :
    ∀ p ∈ direction_squares W H S T .up (x, y), p.1 = x ∧ 0 ≤ p.2 ∧ p.2 ≤ y := by
  intro p hp
  rw [direction_squares, dirSeq_up_eq] at hp
  simp only [List.mem_map] at hp
  obtain ⟨b, hb, rfl⟩ := hp
  obtain ⟨h1, h2⟩ := scalarSeq_mem_toZero hT _ y hy b hb
  exact ⟨rfl, h1, h2⟩

theorem direction_squares_left_mem {W H S T x y : Int} (hT : 0 < T) (hx : 0 ≤ x) :
    ∀ p ∈ direction_squares W H S T .left (x, y), p.2 = y ∧ 0 ≤ p.1 ∧ p.1 ≤ x := by
  intro p hp
  rw [direction_squares, dirSeq_left_eq] at hp
  simp only [List.mem_map] at hp
  obtain ⟨a, ha, rfl⟩ := hp
  obtain ⟨h1, h2⟩ := scalarSeq_mem_toZero hT _ x hx a ha
  exact ⟨rfl, h1, h2⟩

theorem direction_squares_right_mem {W H S T x y : Int} (hT : 0 < T)
    (hB : 0 ≤ W - S) (hx : 0 ≤ x) :
    ∀ p ∈ direction_squares W H S T .right (x, y), p.2 = y ∧ 0 ≤ p.1 ∧ p.1 ≤ W - S := by
  intro p hp
  rw [direction_squares, dirSeq_right_eq] at hp
  simp only [List.mem_map] at hp
  obtain ⟨a, ha, rfl⟩ := hp
  obtain ⟨h1, h2⟩ := scalarSeq_mem_toBound hT hB _ x hx a ha
  exact ⟨rfl, h1, h2⟩

theorem direction_squares_down_mem {W H S T x y : Int} (hT : 0 < T)
    (hB : 0 ≤ H - S) (hy : 0 ≤ y) :
    ∀ p ∈ direction_squares W H S T .down (x, y), p.1 = x ∧ 0 ≤ p.2 ∧ p.2 ≤ H - S := by
  intro p hp
  rw [direction_squares, dirSeq_down_eq] at hp
  simp only [List.mem_map] at hp
  obtain ⟨b, hb, rfl⟩ := hp
  obtain ⟨h1, h2⟩ := scalarSeq_mem_toBound hT hB _ y hy b hb
  exact ⟨rfl, h1, h2⟩

theorem direction_squares_chain_away {W H S T : Int} (hT : 0 < T) (d : Dir)
    (p : Int × Int) (hseed : seedOk W H S d p) :
    List.Chain (away d) p (direction_squares W H S T d p) := by
  obtain ⟨x, y⟩ := p
  cases d with
  | up =>
    rw [direction_squares, dirSeq_up_eq]
    exact (List.chain_map (fun b => (x, b))).mpr
      ((scalarSeq_chain_gt_toZero hT _ y hseed).imp fun a b hab => ⟨hab, rfl⟩)
  | left =>
    rw [direction_squares, dirSeq_left_eq]
    exact (List.chain_map (fun a => (a, y))).mpr
      ((scalarSeq_chain_gt_toZero hT _ x hseed).imp fun a b hab => ⟨hab, rfl⟩)
  | right =>
    rw [direction_squares, dirSeq_right_eq]
    exact (List.chain_map (fun a => (a, y))).mpr
      ((scalarSeq_chain_lt_toBound hT _ x hseed).imp fun a b hab => ⟨hab, rfl⟩)
  | down =>
    rw [direction_squares, dirSeq_down_eq]
    exact (List.chain_map (fun b => (x, b))).mpr
      ((scalarSeq_chain_lt_toBound hT _ y hseed).imp fun a b hab => ⟨hab, rfl⟩)

theorem cons_map_getLast? {α β : Type} (f : α → β) (x : α) (l : List α) (q : β)
    (h : (f x :: l.map f).getLast? = some q) :
    ∃ a, (x :: l).getLast? = some a ∧ q = f a := by
  rw [← List.map_cons, List.getLast?_map] at h
  rcases hl : (x :: l).getLast? with _ | a
  · rw [hl] at h; exact absurd h (by simp)
  · rw [hl] at h; exact ⟨a, rfl, by simpa using h.symm⟩

theorem direction_squares_last_stops {W H S T : Int} (hT : 0 < T) (d : Dir)
    (p : Int × Int) :
    ∀ q, (p :: direction_squares W H S T d p).getLast? = some q →
      stops (move_square W H S T q d) = true := by
  obtain ⟨x, y⟩ := p
  intro q hq
  cases d with
  | up =>
    rw [direction_squares, dirSeq_up_eq] at hq
    obtain ⟨a, hl, rfl⟩ := cons_map_getLast? (fun b => (x, b)) y _ q hq
    have hfix' : max 0 (a - T) = a :=
      scalarSeq_last_fix_toZero hT _ y (by unfold dirFuel; omega) a hl
    simp [move_square, stops, hfix']
  | left =>
    rw [direction_squares, dirSeq_left_eq] at hq
    obtain ⟨a, hl, rfl⟩ := cons_map_getLast? (fun a => (a, y)) x _ q hq
    have hfix' : max 0 (a - T) = a :=
      scalarSeq_last_fix_toZero hT _ x (by unfold dirFuel; omega) a hl
    simp [move_square, stops, hfix']
  | right =>
    rw [direction_squares, dirSeq_right_eq] at hq
    obtain ⟨a, hl, rfl⟩ := cons_map_getLast? (fun a => (a, y)) x _ q hq
    have hfix' : min (a + T) (W - S) = a :=
      scalarSeq_last_fix_toBound hT _ x (by unfold dirFuel; omega) a hl
    simp [move_square, stops, hfix']
  | down =>
    rw [direction_squares, dirSeq_down_eq] at hq
    obtain ⟨a, hl, rfl⟩ := cons_map_getLast? (fun b => (x, b)) y _ q hq
    have hfix' : min (a + T) (H - S) = a :=
      scalarSeq_last_fix_toBound hT _ y (by unfold dirFuel; omega) a hl
    simp [move_square, stops, hfix']

theorem quadrant_mem {vert horiz : List (Int × Int)} {p : Int × Int} :
    p ∈ quadrant vert horiz ↔ ∃ v ∈ vert, ∃ hz ∈ horiz, p = (hz.1, v.2) := by
  simp only [quadrant, List.mem_flatMap, List.mem_map]
  constructor
  · rintro ⟨v, hv, hz, hhz, rfl⟩
    exact ⟨v, hv, hz, hhz, rfl⟩
  · rintro ⟨v, hv, hz, hhz, rfl⟩
    exact ⟨v, hv, hz, hhz, rfl⟩

theorem quadrant_length (vert horiz : List (Int × Int)) :
    (quadrant vert horiz).length = vert.length * horiz.length := by
  induction vert with
  | nil => simp [quadrant]
  | cons v vs ih =>
    simp only [quadrant, List.flatMap_cons, List.length_append, List.length_map,
      List.length_cons] at *
    rw [ih]
    ring

/-! ## The claims -/

/-- C2: for all source dimensions `(w, h)`, target dimensions `(W, H)`
with `w ≤ W`, `h ≤ H`, and a focus point `fx ∈ [0, w)`, `fy ∈ [0, h)`,
the expansion returned by `calculate_expansion` satisfies
`left + right = W - w`, `top + bottom = H - h`, and all four margins are
non-negative; and at `w=800, h=600, W=1920, H=1080, focus=(400,300)` it
returns `(left, right, top, bottom) = (560, 560, 240, 240)`. -/
theorem C2_expansion_margins :
    (∀ w h W H fx fy : Int, 0 ≤ fx → fx < w → 0 ≤ fy → fy < h → w ≤ W → h ≤ H →
      (calculate_expansion w h W H fx fy).1 + (calculate_expansion w h W H fx fy).2.1
          = W - w ∧
      (calculate_expansion w h W H fx fy).2.2.1 + (calculate_expansion w h W H fx fy).2.2.2
          = H - h ∧
      0 ≤ (calculate_expansion w h W H fx fy).1 ∧
      0 ≤ (calculate_expansion w h W H fx fy).2.1 ∧
      0 ≤ (calculate_expansion w h W H fx fy).2.2.1 ∧
      0 ≤ (calculate_expansion w h W H fx fy).2.2.2) ∧
    calculate_expansion 800 600 1920 1080 400 300 = (560, 560, 240, 240) := by
  constructor
  · intro w h W H fx fy hfx0 hfxw hfy0 hfyh hw hh
    have hw0 : 0 < w := lt_of_le_of_lt hfx0 hfxw
    have hh0 : 0 < h := lt_of_le_of_lt hfy0 hfyh
    have hWw : 0 ≤ W - w := by linarith
    have hHh : 0 ≤ H - h := by linarith
    have hxnum : 0 ≤ (W - w) * fx := mul_nonneg hWw hfx0
    have hynum : 0 ≤ (H - h) * fy := mul_nonneg hHh hfy0
    have hleft : 0 ≤ Int.tdiv ((W - w) * fx) w := Int.tdiv_nonneg hxnum (le_of_lt hw0)
    have htop : 0 ≤ Int.tdiv ((H - h) * fy) h := Int.tdiv_nonneg hynum (le_of_lt hh0)
    have hleft_le : Int.tdiv ((W - w) * fx) w ≤ W - w := by
      rw [Int.tdiv_eq_ediv hxnum (le_of_lt hw0)]
      calc (W - w) * fx / w ≤ (W - w) * w / w :=
            Int.ediv_le_ediv hw0 (mul_le_mul_of_nonneg_left (le_of_lt hfxw) hWw)
        _ = W - w := Int.mul_ediv_cancel _ (ne_of_gt hw0)
    have htop_le : Int.tdiv ((H - h) * fy) h ≤ H - h := by
      rw [Int.tdiv_eq_ediv hynum (le_of_lt hh0)]
      calc (H - h) * fy / h ≤ (H - h) * h / h :=
            Int.ediv_le_ediv hh0 (mul_le_mul_of_nonneg_left (le_of_lt hfyh) hHh)
        _ = H - h := Int.mul_ediv_cancel _ (ne_of_gt hh0)
    simp only [calculate_expansion]
    exact ⟨by ring, by ring, hleft, by linarith, htop, by linarith⟩
  · decide

/-- Witness for C2 at the spec's own scenario input. -/
theorem C2_expansion_margins_witness :
    0 ≤ (400 : Int) ∧ (400 : Int) < 800 ∧ 0 ≤ (300 : Int) ∧ (300 : Int) < 600 ∧
    (800 : Int) ≤ 1920 ∧ (600 : Int) ≤ 1080 ∧
    ((calculate_expansion 800 600 1920 1080 400 300).1 +
        (calculate_expansion 800 600 1920 1080 400 300).2.1 = 1920 - 800 ∧
      (calculate_expansion 800 600 1920 1080 400 300).2.2.1 +
        (calculate_expansion 800 600 1920 1080 400 300).2.2.2 = 1080 - 600 ∧
      0 ≤ (calculate_expansion 800 600 1920 1080 400 300).1 ∧
      0 ≤ (calculate_expansion 800 600 1920 1080 400 300).2.1 ∧
      0 ≤ (calculate_expansion 800 600 1920 1080 400 300).2.2.1 ∧
      0 ≤ (calculate_expansion 800 600 1920 1080 400 300).2.2.2) :=
  ⟨by decide, by decide, by decide, by decide, by decide, by decide,
    C2_expansion_margins.1 800 600 1920 1080 400 300 (by decide) (by decide)
      (by decide) (by decide) (by decide) (by decide)⟩

/-- C3: a tile wholly inside the pasted source rectangle is skipped —
no inpainting call, canvas returned unchanged — and a tile not wholly
inside always invokes the inpainting collaborator. -/
theorem C3_skip_rule (func_inpaint : Canvas → String → Canvas)
    (left top w h S : Int) (human_boxes : List (Int × Int × Int × Int))
    (ph pf : String) (c : Canvas) (x y : Int) :
    ((x ≥ left ∧ y ≥ top ∧ x + S ≤ left + w ∧ y + S ≤ top + h) →
      (inpaint_square func_inpaint left top w h S human_boxes ph pf c (x, y)).called
          = false ∧
      (inpaint_square func_inpaint left top w h S human_boxes ph pf c (x, y)).canvas
          = c) ∧
    (¬(x ≥ left ∧ y ≥ top ∧ x + S ≤ left + w ∧ y + S ≤ top + h) →
      (inpaint_square func_inpaint left top w h S human_boxes ph pf c (x, y)).called
          = true) := by
  constructor
  · intro hin
    constructor <;> simp [inpaint_square, hin]
  · intro hout
    simp [inpaint_square, hout]

/-- Witness for C3: a tile inside the pasted rectangle is skipped with
the canvas unchanged, and a tile outside it triggers a call. -/
theorem C3_skip_rule_witness :
    ((inpaint_square (fun _ _ _ => 0) 0 0 100 100 10 [] "a" "b" (fun _ => 0)
        (5, 5)).called = false ∧
      (inpaint_square (fun _ _ _ => 0) 0 0 100 100 10 [] "a" "b" (fun _ => 0)
        (5, 5)).canvas = (fun _ => 0)) ∧
    (inpaint_square (fun _ _ _ => 0) 0 0 100 100 10 [] "a" "b" (fun _ => 0)
        (200, 5)).called = true :=
  ⟨(C3_skip_rule (fun _ _ _ => 0) 0 0 100 100 10 [] "a" "b" (fun _ => 0) 5 5).1
      (by decide),
    (C3_skip_rule (fun _ _ _ => 0) 0 0 100 100 10 [] "a" "b" (fun _ => 0) 200 5).2
      (by decide)⟩

/-- C5: each diagonal quadrant of the plan is exactly the cross-product
of its vertical direction's list and horizontal direction's list: every
pair `(horizontal_x, vertical_y)` appears, the length is the product of
the two lengths, and the quadrant is empty when either contributing list
is. -/
theorem C5_quadrant_cross_product (W H S T left top w h : Int) :
    ((create_planned_squares W H S T left top w h).up_left
        = quadrant (create_planned_squares W H S T left top w h).up
            (create_planned_squares W H S T left top w h).left ∧
      (create_planned_squares W H S T left top w h).up_right
        = quadrant (create_planned_squares W H S T left top w h).up
            (create_planned_squares W H S T left top w h).right ∧
      (create_planned_squares W H S T left top w h).down_left
        = quadrant (create_planned_squares W H S T left top w h).down
            (create_planned_squares W H S T left top w h).left ∧
      (create_planned_squares W H S T left top w h).down_right
        = quadrant (create_planned_squares W H S T left top w h).down
            (create_planned_squares W H S T left top w h).right) ∧
    (∀ vert horiz : List (Int × Int),
      (quadrant vert horiz).length = vert.length * horiz.length ∧
      (∀ v ∈ vert, ∀ hz ∈ horiz, (hz.1, v.2) ∈ quadrant vert horiz) ∧
      ((vert = [] ∨ horiz = []) → quadrant vert horiz = [])) := by
  refine ⟨⟨rfl, rfl, rfl, rfl⟩, fun vert horiz => ⟨quadrant_length vert horiz, ?_, ?_⟩⟩
  · intro v hv hz hhz
    exact quadrant_mem.mpr ⟨v, hv, hz, hhz, rfl⟩
  · rintro (rfl | rfl)
    · rfl
    · simp [quadrant]

/-- Witness for C5 on concrete lists of unequal length. -/
theorem C5_quadrant_cross_product_witness :
    (quadrant [((1 : Int), (2 : Int)), (3, 4)] [((5 : Int), (6 : Int))]).length = 2 * 1 ∧
    ((5, 2) ∈ quadrant [((1 : Int), (2 : Int)), (3, 4)] [((5 : Int), (6 : Int))]) ∧
    quadrant [((1 : Int), (2 : Int)), (3, 4)] ([] : List (Int × Int)) = [] := by
  have h := (C5_quadrant_cross_product 0 0 0 0 0 0 0 0).2
    [((1 : Int), (2 : Int)), (3, 4)] [((5 : Int), (6 : Int))]
  have h2 := (C5_quadrant_cross_product 0 0 0 0 0 0 0 0).2
    [((1 : Int), (2 : Int)), (3, 4)] ([] : List (Int × Int))
  exact ⟨h.1, h.2.1 (1, 2) (by decide) (5, 6) (by decide), h2.2.2 (Or.inr rfl)⟩

/-- C6: the painted tile uses the primary (human) prompt exactly when
some detected box passes the open-rectangle intersection test; the test
is an existence test over the box list; otherwise the fallback prompt is
used. -/
theorem C6_prompt_selection (func_inpaint : Canvas → String → Canvas)
    (left top w h S : Int) (human_boxes : List (Int × Int × Int × Int))
    (ph pf : String) (c : Canvas) (x y : Int) :
    (human_in_square human_boxes (x, y, x + S, y + S) = true ↔
      ∃ box ∈ human_boxes,
        x < box.2.2.1 ∧ x + S > box.1 ∧ y < box.2.2.2 ∧ y + S > box.2.1) ∧
    (¬(x ≥ left ∧ y ≥ top ∧ x + S ≤ left + w ∧ y + S ≤ top + h) →
      (inpaint_square func_inpaint left top w h S human_boxes ph pf c (x, y)).promptUsed
        = some (if human_in_square human_boxes (x, y, x + S, y + S) then ph else pf)) := by
  constructor
  · simp only [human_in_square, List.any_eq_true, Bool.and_eq_true, decide_eq_true_eq]
    constructor
    · rintro ⟨box, hbox, ⟨⟨h1, h2⟩, h3⟩, h4⟩
      exact ⟨box, hbox, h1, h2, h3, h4⟩
    · rintro ⟨box, hbox, h1, h2, h3, h4⟩
      exact ⟨box, hbox, ⟨⟨h1, h2⟩, h3⟩, h4⟩
  · intro hout
    simp [inpaint_square, hout]

/-- Witness for C6 at the spec's scenario: box `(100,100,200,200)` and
tile `(150,150,300,300)` overlap, so the primary prompt is used; tile
`(300,300,400,400)` does not overlap, so the fallback prompt is used. -/
theorem C6_prompt_selection_witness :
    (inpaint_square (fun _ _ _ => 0) 0 0 0 0 150 [(100, 100, 200, 200)] "ph" "pf"
        (fun _ => 0) (150, 150)).promptUsed = some "ph" ∧
    (inpaint_square (fun _ _ _ => 0) 0 0 0 0 100 [(100, 100, 200, 200)] "ph" "pf"
        (fun _ => 0) (300, 300)).promptUsed = some "pf" := by
  constructor
  · have h := (C6_prompt_selection (fun _ _ _ => 0) 0 0 0 0 150 [(100, 100, 200, 200)]
      "ph" "pf" (fun _ => 0) 150 150).2 (by decide)
    rw [h]; decide
  · have h := (C6_prompt_selection (fun _ _ _ => 0) 0 0 0 0 100 [(100, 100, 200, 200)]
      "ph" "pf" (fun _ => 0) 300 300).2 (by decide)
    rw [h]; decide

/-- C7 (code evaluation at the failing input): with a target smaller
than the source (`W=400 < w=800`, `H=300 < h=600`) and the default
centre focus `(400, 300)`, `calculate_expansion` silently returns
negative margins `(-200, -200, -150, -150)` — the constructor performs
no validation and raises no configuration error. -/
theorem C7_no_failfast_on_smaller_target :
    calculate_expansion 800 600 400 300 400 300 = (-200, -200, -150, -150) ∧
    (calculate_expansion 800 600 400 300 400 300).1 < 0 ∧
    (calculate_expansion 800 600 400 300 400 300).2.2.1 < 0 := by decide

/-- C8 counterexample: a structured response that parses as a JSON array
(not the expected dictionary) makes `make_prompt_fallback` raise an
uncaught `AttributeError` — it does not fail soft, contradicting the
claim that every malformed response is recovered with a warning. -/
theorem C8_counterexample :
    make_prompt_fallback none (some (.arr [])) = .raised "AttributeError" ∧
    FallbackOutcome.raised "AttributeError" ≠ .warnedUnset := by
  exact ⟨rfl, by simp⟩

/-- C8 (amended): with no fallback already provided, the soft-fail path
(warning logged, fallback left unset, no exception) is taken exactly
when the response fails JSON parsing; a response that parses to a
non-dictionary value instead raises an uncaught `AttributeError`. -/
theorem C8_fallback_soft_fail (fallback : Option String) (parsed : Option PyJson)
    (hfb : pyTruthy fallback = false) :
    (make_prompt_fallback fallback parsed = .warnedUnset ↔ parsed = none) ∧
    (∀ v, parsed = some v → (∀ fields, v ≠ .obj fields) →
      make_prompt_fallback fallback parsed = .raised "AttributeError") := by
  constructor
  · constructor
    · intro hres
      rcases parsed with _ | v
      · rfl
      · exfalso
        simp only [make_prompt_fallback, hfb, Bool.false_eq_true, if_false] at hres
        split at hres
        · exact FallbackOutcome.noConfusion hres
        · split at hres
          · exact FallbackOutcome.noConfusion hres
          · exact FallbackOutcome.noConfusion hres
    · rintro rfl
      simp [make_prompt_fallback, hfb]
  · rintro v rfl hnobj
    have hg : pyGet v "approved" (.arr []) = .error "AttributeError" := by
      cases v with
      | obj fields => exact absurd rfl (hnobj fields)
      | null => rfl
      | bool b => rfl
      | num n => rfl
      | str s => rfl
      | arr xs => rfl
    simp [make_prompt_fallback, hfb, hg]

/-- Witness for C8 (amended): with no fallback set, an unparseable
response warns and leaves the fallback unset, and a parsed JSON string
(a non-dictionary) raises. -/
theorem C8_fallback_soft_fail_witness :
    pyTruthy none = false ∧
    (make_prompt_fallback none none = .warnedUnset ↔ (none : Option PyJson) = none) ∧
    make_prompt_fallback none (some (.str "hello")) = .raised "AttributeError" :=
  ⟨rfl, (C8_fallback_soft_fail none none rfl).1,
    (C8_fallback_soft_fail none (some (.str "hello")) rfl).2 (.str "hello") rfl
      (fun _ h => PyJson.noConfusion h)⟩

/-- C9 (code evaluation): in a run with no caller-supplied prompt, the
captioning step `self.prompt = await self.describe_image()` raises
`ImportError` — `describe_image`'s default path imports
`describe_image_huggingface`, which `models.py` does not define — so
the describe collaborator is never invoked and the primary prompt never
becomes the returned description; and even with a collaborator
supplied, `describe_image` assigns the description internally but
returns `None`, so the caller's reassignment could not yield the
description either. -/
theorem C9_prompt_never_description (described : String) :
    iterative_inpainting_prompts none none described =
      .error "ImportError: cannot import name describe_image_huggingface from multinpainter.models" ∧
    describe_image_import_name ∉ models_module_names ∧
    (describe_image none described).1 = some described ∧
    (describe_image none described).2 = none ∧
    (∀ out, iterative_inpainting_prompts none none described ≠ .ok out) := by
  refine ⟨rfl, by decide, rfl, rfl, fun out hcontra => ?_⟩
  rw [show iterative_inpainting_prompts none none described =
    .error "ImportError: cannot import name describe_image_huggingface from multinpainter.models"
    from rfl] at hcontra
  exact Except.noConfusion hcontra

/-- C10: with `humans=True` (the constructor's default), initialization
fails before any tile is planned: `detect_humans` imports the name
`detect_humans_yolov8`, which `models.py` does not define, so the
`__init__` sequence raises `ImportError` and never produces a plan; and
`detect_humans` itself returns `None` after assigning the boxes
internally, so `len(self.human_boxes)` could not complete either. -/
theorem C10_humans_init_raises (W H S T left top w h : Int) :
    init_humans_planning true W H S T left top w h =
      .error "ImportError: cannot import name detect_humans_yolov8 from multinpainter.models" ∧
    detect_humans_import_name ∉ models_module_names ∧
    (∀ boxes, (detect_humans boxes).2 = none) ∧
    (∀ plan, init_humans_planning true W H S T left top w h ≠ .completed plan) := by
  refine ⟨rfl, by decide, fun boxes => rfl, fun plan hcontra => ?_⟩
  rw [show init_humans_planning true W H S T left top w h =
    .error "ImportError: cannot import name detect_humans_yolov8 from multinpainter.models"
    from rfl] at hcontra
  exact InitOutcome.noConfusion hcontra

/-- Witness for C9 at a concrete description string. -/
theorem C9_prompt_never_description_witness :
    iterative_inpainting_prompts none none "a scenic view" =
      .error "ImportError: cannot import name describe_image_huggingface from multinpainter.models" ∧
    (describe_image none "a scenic view").2 = none :=
  ⟨(C9_prompt_never_description "a scenic view").1,
    (C9_prompt_never_description "a scenic view").2.2.2.1⟩

/-- Witness for C10 at a concrete configuration. -/
theorem C10_humans_init_raises_witness :
    init_humans_planning true 1920 1080 1024 512 560 240 800 600 =
      .error "ImportError: cannot import name detect_humans_yolov8 from multinpainter.models" ∧
    detect_humans_import_name ∉ models_module_names :=
  ⟨(C10_humans_init_raises 1920 1080 1024 512 560 240 800 600).1,
    (C10_humans_init_raises 1920 1080 1024 512 560 240 800 600).2.1⟩

/-- C1 counterexample: at the reachable configuration `w=800, h=600,
W=1920, H=1080`, focus `(799, 300)` (inside the source), `S=1024`,
`T=512`, the plan's init tile is `(1006, 28)` and `1006 + 1024 > 1920`:
a planned tile exceeds the canvas bound, so the claimed invariant fails
under the claim's hypotheses alone. -/
theorem C1_counterexample :
    (800 : Int) ≤ 1920 ∧ (600 : Int) ≤ 1080 ∧ (0 : Int) < 512 ∧ (512 : Int) ≤ 1024 ∧
    calculate_expansion 800 600 1920 1080 799 300 = (1118, 2, 240, 240) ∧
    (1006, 28) ∈ planPositions (create_planned_squares 1920 1080 1024 512 1118 240 800 600) ∧
    ¬((1006 : Int) + 1024 ≤ 1920) := by decide

/-- C1 (amended): under the claim's hypotheses plus the additional
condition that the initial tile itself lies within the canvas (which
`C1_counterexample` shows is not implied), every tile position of the
plan — init, straight directions and diagonal quadrants — has
non-negative coordinates and satisfies `x + S ≤ W` and `y + S ≤ H`
(every tile's side is `S` by construction of the plan). -/
theorem C1_plan_within_canvas (W H S T left top w h : Int)
    (hT : 0 < T) (hTS : T ≤ S) (hw : w ≤ W) (hh : h ≤ H)
    (hfx : (get_initial_square_position left top w h S).1 + S ≤ W)
    (hfy : (get_initial_square_position left top w h S).2 + S ≤ H) :
    ∀ p ∈ planPositions (create_planned_squares W H S T left top w h),
      0 ≤ p.1 ∧ 0 ≤ p.2 ∧ p.1 + S ≤ W ∧ p.2 + S ≤ H := by
  rcases hq : get_initial_square_position left top w h S with ⟨x0, y0⟩
  have hx0 : 0 ≤ x0 := by
    have h1 : max 0 (left - Int.fdiv (S - w) 2) = x0 := congrArg Prod.fst hq
    rw [← h1]; exact le_max_left _ _
  have hy0 : 0 ≤ y0 := by
    have h1 : max 0 (top - Int.fdiv (S - h) 2) = y0 := congrArg Prod.snd hq
    rw [← h1]; exact le_max_left _ _
  rw [hq] at hfx hfy
  have hfx' : x0 + S ≤ W := hfx
  have hfy' : y0 + S ≤ H := hfy
  have hWS : 0 ≤ W - S := by linarith
  have hHS : 0 ≤ H - S := by linarith
  have hxWS : x0 ≤ W - S := by linarith
  have hyHS : y0 ≤ H - S := by linarith
  intro p hp
  simp only [planPositions, create_planned_squares, hq, List.mem_append,
    List.mem_singleton] at hp
  rcases hp with ((((((((hp | hp) | hp) | hp) | hp) | hp) | hp) | hp) | hp)
  · subst hp
    exact ⟨hx0, hy0, hfx', hfy'⟩
  · obtain ⟨hp1, hp2, hp3⟩ := direction_squares_up_mem hT hy0 p hp
    exact ⟨hp1 ▸ hx0, hp2, hp1 ▸ hfx', by linarith⟩
  · obtain ⟨hp1, hp2, hp3⟩ := direction_squares_left_mem hT hx0 p hp
    exact ⟨hp2, hp1 ▸ hy0, by linarith, hp1 ▸ hfy'⟩
  · obtain ⟨hp1, hp2, hp3⟩ := direction_squares_right_mem hT hWS hx0 p hp
    exact ⟨hp2, hp1 ▸ hy0, by linarith, hp1 ▸ hfy'⟩
  · obtain ⟨hp1, hp2, hp3⟩ := direction_squares_down_mem hT hHS hy0 p hp
    exact ⟨hp1 ▸ hx0, hp2, hp1 ▸ hfx', by linarith⟩
  · obtain ⟨v, hv, hz, hhz, rfl⟩ := quadrant_mem.mp hp
    obtain ⟨_, hv2, hv3⟩ := direction_squares_up_mem hT hy0 v hv
    obtain ⟨_, hz2, hz3⟩ := direction_squares_left_mem hT hx0 hz hhz
    exact ⟨hz2, hv2, by linarith, by linarith⟩
  · obtain ⟨v, hv, hz, hhz, rfl⟩ := quadrant_mem.mp hp
    obtain ⟨_, hv2, hv3⟩ := direction_squares_up_mem hT hy0 v hv
    obtain ⟨_, hz2, hz3⟩ := direction_squares_right_mem hT hWS hx0 hz hhz
    exact ⟨hz2, hv2, by linarith, by linarith⟩
  · obtain ⟨v, hv, hz, hhz, rfl⟩ := quadrant_mem.mp hp
    obtain ⟨_, hv2, hv3⟩ := direction_squares_down_mem hT hHS hy0 v hv
    obtain ⟨_, hz2, hz3⟩ := direction_squares_left_mem hT hx0 hz hhz
    exact ⟨hz2, hv2, by linarith, by linarith⟩
  · obtain ⟨v, hv, hz, hhz, rfl⟩ := quadrant_mem.mp hp
    obtain ⟨_, hv2, hv3⟩ := direction_squares_down_mem hT hHS hy0 v hv
    obtain ⟨_, hz2, hz3⟩ := direction_squares_right_mem hT hWS hx0 hz hhz
    exact ⟨hz2, hv2, by linarith, by linarith⟩

/-- Witness for C1 (amended) at the spec's scenario configuration. -/
theorem C1_plan_within_canvas_witness :
    (0 : Int) < 512 ∧ (512 : Int) ≤ 1024 ∧ (800 : Int) ≤ 1920 ∧ (600 : Int) ≤ 1080 ∧
    (get_initial_square_position 560 240 800 600 1024).1 + 1024 ≤ 1920 ∧
    (get_initial_square_position 560 240 800 600 1024).2 + 1024 ≤ 1080 ∧
    ∀ p ∈ planPositions (create_planned_squares 1920 1080 1024 512 560 240 800 600),
      0 ≤ p.1 ∧ 0 ≤ p.2 ∧ p.1 + 1024 ≤ 1920 ∧ p.2 + 1024 ≤ 1080 :=
  ⟨by decide, by decide, by decide, by decide, by decide, by decide,
    C1_plan_within_canvas 1920 1080 1024 512 560 240 800 600 (by decide) (by decide)
      (by decide) (by decide) (by decide) (by decide)⟩

/-- C4 counterexample: at the reachable configuration of
`C1_counterexample` the init tile is `(1006, 28)` with `1006 > W - S =
896`, and the `right` sequence's single tile `(896, 28)` moves left, not
away from init — the monotone-away property fails without a hypothesis
on the starting position. -/
theorem C4_counterexample :
    (0 : Int) < 512 ∧ (512 : Int) ≤ 1024 ∧ (800 : Int) ≤ 1920 ∧ (600 : Int) ≤ 1080 ∧
    calculate_expansion 800 600 1920 1080 799 300 = (1118, 2, 240, 240) ∧
    get_initial_square_position 1118 240 800 600 1024 = (1006, 28) ∧
    direction_squares 1920 1080 1024 512 .right (1006, 28) = [(896, 28)] ∧
    ¬ List.Chain (away .right) (1006, 28)
        (direction_squares 1920 1080 1024 512 .right (1006, 28)) := by
  refine ⟨by decide, by decide, by decide, by decide, by decide, by decide, by decide, ?_⟩
  intro hchain
  rw [show direction_squares 1920 1080 1024 512 .right (1006, 28) = [(896, 28)]
    by decide] at hchain
  exact absurd (List.chain_cons.mp hchain).1 (by decide)

/-- C4 (amended): for every starting position not already beyond the far
canvas edge of its direction (`seedOk`; `C4_counterexample` shows the
restriction is needed), the directional sequence is linked by
`move_square` steps, moves strictly monotonically away from the start,
and ends exactly at the first position whose clamped step yields no
change — that position's move signals a stop and is not appended; and in
the spec's scenario (`S=1024, T=512`, canvas `1920×1080`, expansion
`left=560, top=240`) the `right` sequence's last tile has `x = 896`. -/
theorem C4_directional_sequences :
    (∀ W H S T : Int, ∀ d : Dir, ∀ p : Int × Int, 0 < T → T ≤ S →
      seedOk W H S d p →
      List.Chain (fun a b => move_square W H S T a d = (some b.1, some b.2)) p
        (direction_squares W H S T d p) ∧
      List.Chain (away d) p (direction_squares W H S T d p) ∧
      (∀ q, (p :: direction_squares W H S T d p).getLast? = some q →
        stops (move_square W H S T q d) = true)) ∧
    ((create_planned_squares 1920 1080 1024 512 560 240 800 600).right.map
        Prod.fst).getLast? = some 896 := by
  constructor
  · intro W H S T d p hT hTS hseed
    exact ⟨dirSeq_chain_move W H S T d (dirFuel W H S T p) p,
      direction_squares_chain_away hT d p hseed,
      direction_squares_last_stops hT d p⟩
  · decide

/-- Witness for C4 (amended) at the spec's scenario seed `(448, 28)` in
direction `right`. -/
theorem C4_directional_sequences_witness :
    (0 : Int) < 512 ∧ (512 : Int) ≤ 1024 ∧ seedOk 1920 1080 1024 .right (448, 28) ∧
    (List.Chain (fun a b => move_square 1920 1080 1024 512 a .right = (some b.1, some b.2))
        (448, 28) (direction_squares 1920 1080 1024 512 .right (448, 28)) ∧
      List.Chain (away .right) (448, 28)
        (direction_squares 1920 1080 1024 512 .right (448, 28)) ∧
      (∀ q, ((448, 28) :: direction_squares 1920 1080 1024 512 .right (448, 28)).getLast?
          = some q → stops (move_square 1920 1080 1024 512 q .right) = true)) :=
  ⟨by decide, by decide, by decide,
    C4_directional_sequences.1 1920 1080 1024 512 .right (448, 28) (by decide)
      (by decide) (by decide)⟩

end Multinpainter
